import Mathlib

/-!
Shallow embedding of the YouTube transcript-acquisition pipeline of
`stockllm/analyzer/youtube/youtube_analyzer.py` (class `YoutubeAnalyzer`),
together with theorems checking the specification's claims against it.

External collaborators (yt-dlp, the captions API, the OpenAI transcription
API, the Cobalt fallback, the filesystem) are modelled as oracles passed in
as function parameters; the control flow of the Python methods is translated
directly.  Python exceptions are modelled with `Except`:
an `Except.error` value is a raised exception escaping the modelled method.
-/

namespace StockLLM

/-- `MAX_FILE_SIZE = 25 * 1024 * 1024` (25 MB in bytes), module-level constant. -/
def MAX_FILE_SIZE : Nat := 25 * 1024 * 1024

/-- `INITIAL_CHUNK_DURATION = 10 * 60 * 1000` (10 minutes in milliseconds). -/
def INITIAL_CHUNK_DURATION : Nat := 10 * 60 * 1000

/-- Outcome of the chunking loop other than a list of accepted chunks:
`chunkTooSmall` models `raise ValueError("Unable to create a small enough chunk")`;
`fuelOut` is an artifact of the structural-fuel embedding of the two
`while` loops and is proved unreachable for the fuel `processChunks` supplies. -/
inductive ChunkErr where
  | chunkTooSmall
  | fuelOut
deriving DecidableEq

/-- The inner `while True` loop of `process_and_transcribe_audio`
(lines 471-485): the candidate slice is `audio[s:e]`; `encSize s e` is the
byte size of that slice exported as mp3 at 64k.  If the size is within
`maxB` the candidate end is accepted; otherwise `end = start + (end - start) // 2`
and the loop retries, raising once `end - start < 1000` (one second). -/
def chunkShrink (encSize : Nat → Nat → Nat) (maxB s : Nat) : Nat → Nat → Except ChunkErr Nat
  | 0, _ => .error .fuelOut
  | fuel + 1, e =>
    if encSize s e ≤ maxB then .ok e
    else
      let e' := s + (e - s) / 2
      if e' - s < 1000 then .error .chunkTooSmall
      else chunkShrink encSize maxB s fuel e'

/-- The outer `while start < len(audio)` loop of `process_and_transcribe_audio`
(lines 468-497), restricted to the chunk-boundary computation: each iteration
proposes `end = min(start + INITIAL_CHUNK_DURATION, len(audio))`, lets the
inner loop shrink it, records the accepted chunk `(start, end)` and continues
from `start = end`.  `D` is `len(audio)` in milliseconds. -/
def chunkOuter (encSize : Nat → Nat → Nat) (maxB initDur D : Nat) :
    Nat → Nat → Except ChunkErr (List (Nat × Nat))
  | 0, s => if s < D then .error .fuelOut else .ok []
  | fuel + 1, s =>
    if s < D then
      match chunkShrink encSize maxB s (min (s + initDur) D - s + 1) (min (s + initDur) D) with
      | .error err => .error err
      | .ok e =>
        match chunkOuter encSize maxB initDur D fuel e with
        | .error err => .error err
        | .ok rest => .ok ((s, e) :: rest)
    else .ok []

/-- The full chunk-boundary computation for an audio buffer of length `D` ms.
The fuel `D` is enough because every accepted chunk is at least 1 ms long. -/
def processChunks (encSize : Nat → Nat → Nat) (maxB initDur D : Nat) :
    Except ChunkErr (List (Nat × Nat)) :=
  chunkOuter encSize maxB initDur D D 0

/-- `partitionB s D cs` holds when the half-open intervals in `cs` partition
`[s, D)` in order: each chunk starts where the previous ended, the first
starts at `s`, the last ends at `D`, with no gaps and no overlaps. -/
def partitionB : Nat → Nat → List (Nat × Nat) → Bool
  | s, D, [] => s == D
  | s, D, c :: rest => c.1 == s && decide (s < c.2) && decide (c.2 ≤ D) && partitionB c.2 D rest

/-! ## JSON values and Python dicts

The pipeline's dictionaries (video metadata, transcript results, the files
written by `json.dump`) are modelled as ordered key/value lists with Python
`dict` semantics; JSON numbers are modelled as rationals. -/

/-- A JSON value as written by `json.dump` and read back by `json.load`. -/
inductive Json where
  | str : String → Json
  | num : ℚ → Json
  | arr : List Json → Json
  | obj : List (String × Json) → Json

/-- A Python dict with string keys, in insertion order. -/
abbrev Dict := List (String × Json)

/-- `d[k]` / `d.get(k)`: the value at the first occurrence of `k`. -/
def dictGet : Dict → String → Option Json
  | [], _ => none
  | p :: rest, k => if p.1 == k then some p.2 else dictGet rest k

/-- `d[k] = v`: overwrite the existing entry in place, else append. -/
def dictSet : Dict → String → Json → Dict
  | [], k, v => [(k, v)]
  | p :: rest, k, v => if p.1 == k then (k, v) :: rest else p :: dictSet rest k v

/-- `d.update(d2)`: fold `d[k] = v` over the entries of `d2`. -/
def dictUpdate (d : Dict) : Dict → Dict
  | [] => d
  | (k, v) :: rest => dictUpdate (dictSet d k v) rest

/-- The keys of a JSON object. -/
def jsonKeys : Json → List String
  | .obj d => d.map Prod.fst
  | _ => []

/-- A caption segment `{text, start, duration}` as returned by the captions
provider and as stored in the transcript files (times in seconds). -/
structure Segment where
  text : String
  start : ℚ
  duration : ℚ
deriving DecidableEq

/-- A whisper `verbose_json` segment `{text, start, end}`; the `end` field is
called `stop` because `end` is reserved in Lean. -/
structure WSeg where
  text : String
  start : ℚ
  stop : ℚ
deriving DecidableEq

/-- A caption segment as a JSON object. -/
def segToJson (s : Segment) : Json :=
  .obj [("text", .str s.text), ("start", .num s.start), ("duration", .num s.duration)]

/-- The mapping applied to whisper segments when building the result of
`process_and_transcribe_audio` (lines 503-510):
`{"text": segment["text"], "start": segment["start"],
  "duration": segment["end"] - segment["start"]}`. -/
def wsegToJson (s : WSeg) : Json :=
  .obj [("text", .str s.text), ("start", .num s.start), ("duration", .num (s.stop - s.start))]

/-- The `result` dict built by `get_transcript` (lines 344-348):
`{"channel_id": channel_title, "video_title": video_title, "transcript": transcript}`. -/
def captionsResult (channel_title video_title : String) (segs : List Segment) : Dict :=
  [("channel_id", .str channel_title),
   ("video_title", .str video_title),
   ("transcript", .arr (segs.map segToJson))]

/-- The `{channel_id, video_title, transcript}` structure the spec says a
persisted transcript file holds. -/
structure TranscriptFile where
  channel_id : String
  video_title : String
  transcript : List Segment
deriving DecidableEq

/-- Serialising a `TranscriptFile` the way `json.dump` writes the
`get_transcript` result. -/
def encodeTranscriptFile (t : TranscriptFile) : Json :=
  .obj [("channel_id", .str t.channel_id), ("video_title", .str t.video_title),
        ("transcript", .arr (t.transcript.map segToJson))]

/-- Reading one segment object back. -/
def jsonToSeg : Json → Option Segment
  | .obj d =>
    match dictGet d "text", dictGet d "start", dictGet d "duration" with
    | some (.str t), some (.num s), some (.num du) => some ⟨t, s, du⟩
    | _, _, _ => none
  | _ => none

/-- Reading the segment array of a persisted transcript file back, failing on
any malformed element. -/
def decodeSegs : List Json → Option (List Segment)
  | [] => some []
  | j :: rest =>
    match jsonToSeg j, decodeSegs rest with
    | some s, some ss => some (s :: ss)
    | _, _ => none

/-- Reading a persisted transcript file back (`json.load` followed by field
access), recovering the `{channel_id, video_title, transcript}` structure. -/
def decodeTranscriptFile (j : Json) : Option TranscriptFile :=
  match j with
  | .obj d =>
    match dictGet d "channel_id", dictGet d "video_title", dictGet d "transcript" with
    | some (.str c), some (.str v), some (.arr l) =>
      match decodeSegs l with
      | some segs => some ⟨c, v, segs⟩
      | none => none
    | _, _, _ => none
  | _ => none

/-! ## The pipeline orchestration

The methods of `YoutubeAnalyzer` are embedded over a `World` oracle that
fixes the behaviour of the external collaborators and the configuration.
`Except.error` models a Python exception escaping the method. -/

/-- A Python exception escaping one of the modelled methods. -/
inductive PyError where
  | keyError (key : String)
  | invalidYoutubeVideoURL
  | providerError (msg : String)
deriving DecidableEq

/-- Exceptions of `YouTubeTranscriptApi.get_transcript`: `TranscriptsDisabled`,
`NoTranscriptAvailable`, or any other exception carrying a message. -/
inductive CapErr where
  | disabled
  | noTranscript
  | other (msg : String)
deriving DecidableEq

/-- Behaviour of the Cobalt fallback in `download_audio` once yt-dlp has
raised `DownloadError`: HTTP 200 with a successful stream download (`ok`),
a non-200 status (`badStatus`, the method falls through to `return None`),
a raised `ValueError` (caught: `return None`), or any other raised exception
(propagates out of the method). -/
inductive CobaltOutcome where
  | ok
  | badStatus
  | valueErr
  | raises (e : PyError)
deriving DecidableEq

/-- Oracle for the external collaborators and configuration of one
`YoutubeAnalyzer` run.  Metadata is keyed by (url, attempt index); captions
and downloads by video id; decoding, slice encoding and transcription by the
audio file path.  String-valued metadata fields are stored as `Json.str`. -/
structure World where
  maxRetries : Nat
  outputDir : String
  /-- `datetime.datetime.now().strftime("%Y%m%d")`. -/
  today : String
  /-- One `ydl.extract_info` metadata fetch; `none` models a raised
  `yt_dlp.utils.DownloadError`, `some d` the filtered metadata dict. -/
  fetchMeta : String → Nat → Option Dict
  /-- `YouTubeTranscriptApi.get_transcript(video_id, languages=["zh-TW", "zh-CN", "zh"], ...)`. -/
  capPreferred : String → Except CapErr (List Segment)
  /-- `YouTubeTranscriptApi.get_transcript(video_id, ...)` with no language list. -/
  capAny : String → Except CapErr (List Segment)
  /-- Whether `ydl.download` succeeds for the video id. -/
  ytdlpOk : String → Bool
  /-- Behaviour of the Cobalt fallback for the video id. -/
  cobalt : String → CobaltOutcome
  /-- `AudioSegment.from_mp3(audio_file)`: length in milliseconds, or a raised
  exception with message. -/
  audioLen : String → Except String Nat
  /-- Exported mp3 size in bytes of `audio[s:e]` of the given audio file. -/
  encSize : String → Nat → Nat → Nat
  /-- The transcription API on the chunk `audio[s:e]` of the given audio
  file: whisper segments, or a raised exception with message. -/
  transcribe : String → Nat → Nat → Except String (List WSeg)
  /-- The entry dicts `get_playlist_info` returns for a playlist url. -/
  playlistEntries : String → List Dict

/-- `d[k]`: a `KeyError` escapes when the key is missing. -/
def getItem (d : Dict) (k : String) : Except PyError Json :=
  match dictGet d k with
  | some v => Except.ok v
  | none => Except.error (.keyError k)

/-- The string carried by a `Json.str`; metadata string fields are always
stored that way, so the default is never taken on the modelled paths. -/
def Json.asStr : Json → String
  | .str s => s
  | _ => ""

/-- The retry loop of `get_video_info` (lines 236-255): attempts
`i, i+1, ...` while fuel (the remaining retry budget) lasts; a
`DownloadError` is logged and retried; with the budget exhausted the method
returns the empty dict. -/
def getVideoInfoLoop (fetch : Nat → Option Dict) : Nat → Nat → Dict
  | 0, _ => []
  | n + 1, i =>
    match fetch i with
    | some d => d
    | none => getVideoInfoLoop fetch n (i + 1)

/-- `get_video_info` (lines 207-255). -/
def get_video_info (w : World) (url : String) : Dict :=
  getVideoInfoLoop (w.fetchMeta url) w.maxRetries 0

/-- The `formatted_date` computed by `get_transcript` (lines 353-359):
the first 8 characters of a non-empty `upload_date`, else today. -/
def formattedDate (w : World) (video_info : Dict) : String :=
  match dictGet video_info "upload_date" with
  | some (.str s) => if s = "" then w.today else s.take 8
  | _ => w.today

/-- The subtitle file path of `get_transcript` (lines 351-362):
`os.path.flatten(output_dir, channel_title)` then
`f"{formatted_date}_{video_id}.json"` inside it. -/
def subtitlePath (w : World) (video_info : Dict) (channel_title video_id : String) : String :=
  w.outputDir ++ "/" ++ channel_title ++ "/" ++ formattedDate w video_info ++ "_" ++
    video_id ++ ".json"

/-- The tail of `get_transcript` on a successfully fetched caption track
(lines 344-367): build the result dict and, with `save_subtitle`, write it
under `<output_dir>/<channel_title>/<formatted_date>_<video_id>.json`. -/
def capSuccess (w : World) (video_info : Dict) (save_subtitle : Bool)
    (chan title vid : String) (t : List Segment) : Option Dict × List (String × Json) :=
  let result := captionsResult chan title t
  if save_subtitle then
    (some result, [(subtitlePath w video_info chan vid, Json.obj result)])
  else (some result, [])

/-- `get_transcript` (lines 295-367).  Reads `video_id`, `channel_title` and
`video_title` from `self.video_info` (a `KeyError` escapes when the metadata
dict is empty); queries the captions provider with the Chinese preference
list; on `TranscriptsDisabled` or `NoTranscriptAvailable` retries without a
language restriction, any failure of which returns `None`; any other
exception of the first query propagates.  With `save_subtitle` the result is
also written as JSON (second component: the writes performed). -/
def get_transcript (w : World) (video_info : Dict) (save_subtitle : Bool) :
    Except PyError (Option Dict × List (String × Json)) :=
  match getItem video_info "video_id" with
  | .error e => .error e
  | .ok vid =>
    match getItem video_info "channel_title" with
    | .error e => .error e
    | .ok chan =>
      match getItem video_info "video_title" with
      | .error e => .error e
      | .ok title =>
        match w.capPreferred vid.asStr with
        | .ok t => .ok (capSuccess w video_info save_subtitle chan.asStr title.asStr vid.asStr t)
        | .error .disabled | .error .noTranscript =>
          match w.capAny vid.asStr with
          | .ok t =>
            .ok (capSuccess w video_info save_subtitle chan.asStr title.asStr vid.asStr t)
          | .error _ => .ok (none, [])
        | .error (.other m) => .error (.providerError m)

/-- `download_audio` (lines 369-439): the target path is
`f"{output_dir}/{video_id}.mp3"`; yt-dlp is tried first and on
`DownloadError` the Cobalt fallback runs; `Except.ok none` is the method
returning `None`. -/
def download_audio (w : World) (video_id : String) : Except PyError (Option String) :=
  let audio_file := w.outputDir ++ "/" ++ video_id ++ ".mp3"
  if w.ytdlpOk video_id then Except.ok (some audio_file)
  else
    match w.cobalt video_id with
    | .ok => Except.ok (some audio_file)
    | .badStatus => Except.ok none
    | .valueErr => Except.ok none
    | .raises e => Except.error e

/-- `d[k]` inside the `try` block of `process_and_transcribe_audio`, where a
`KeyError` is caught by the `except Exception` clause; the error string is
`str(e)`. -/
def keyStr (d : Dict) (k : String) : Except String String :=
  match dictGet d k with
  | some v => Except.ok v.asStr
  | none => Except.error ("KeyError: " ++ k)

/-- Submitting the accepted chunks to the transcription API in list order
(lines 487-494): each chunk's segments are appended to `transcripts`; an API
exception aborts the remaining chunks. -/
def transcribeChunks (w : World) (audio_file : String) :
    List (Nat × Nat) → Except String (List WSeg)
  | [] => Except.ok []
  | c :: rest =>
    match w.transcribe audio_file c.1 c.2 with
    | .error m => .error m
    | .ok segs =>
      match transcribeChunks w audio_file rest with
      | .error m => .error m
      | .ok more => .ok (segs ++ more)

/-- The `try` block of `process_and_transcribe_audio` (lines 463-521): decode
the audio, run the chunking loop, submit every accepted chunk in order,
build the result dict and write it as JSON.  Returns the result dict, the
submitted chunks, and the file writes; `Except.error` is an exception
reaching the `except` clause, carrying `str(e)` (the chunking loop's
`ValueError` message is `"Unable to create a small enough chunk"`).  The
chunk and write lists are reported for the successful path only; the
transient per-chunk temp file (written, submitted, deleted each iteration)
is not tracked. -/
def patBody (w : World) (video_info : Dict) (audio_file : String) :
    Except String (Dict × List (Nat × Nat) × List (String × Json)) :=
  match w.audioLen audio_file with
  | .error m => .error m
  | .ok D =>
    match processChunks (w.encSize audio_file) MAX_FILE_SIZE INITIAL_CHUNK_DURATION D with
    | .error .chunkTooSmall => .error "Unable to create a small enough chunk"
    | .error .fuelOut => .error "unreachable: chunking fuel exhausted"
    | .ok cs =>
      match transcribeChunks w audio_file cs with
      | .error m => .error m
      | .ok segs =>
        match keyStr video_info "video_id" with
        | .error m => .error m
        | .ok vid =>
          match keyStr video_info "video_title" with
          | .error m => .error m
          | .ok title =>
            match keyStr video_info "channel_title" with
            | .error m => .error m
            | .ok chan =>
              let result : Dict :=
                [("video_id", .str vid), ("video_title", .str title),
                 ("channel_title", .str chan),
                 ("transcript", .arr (segs.map wsegToJson))]
              let json_file :=
                w.outputDir ++ "/" ++ chan ++ "_" ++ title ++ "_transcript.json"
              .ok (result, cs, [(json_file, Json.obj result)])

/-- What a call of `process_and_transcribe_audio` produces: the method
outcome (return value or escaping exception), whether the source audio file
no longer exists afterwards (the `finally` clause removes it when present),
the chunks submitted and the files written. -/
structure PATResult where
  outcome : Except PyError Dict
  audioRemoved : Bool
  submissions : List (Nat × Nat)
  writes : List (String × Json)

/-- `process_and_transcribe_audio` (lines 441-528): the `try` body wrapped in
`except Exception` — which builds `{"video_id": ..., "error": str(e)}`,
itself raising `KeyError` when `video_info` has no `"video_id"` — and a
`finally` clause that removes the source audio file. -/
def process_and_transcribe_audio (w : World) (video_info : Dict) (audio_file : String) :
    PATResult :=
  match patBody w video_info audio_file with
  | .ok (result, cs, ws) => ⟨.ok result, true, cs, ws⟩
  | .error msg =>
    match dictGet video_info "video_id" with
    | some v => ⟨.ok [("video_id", v), ("error", .str msg)], true, [], []⟩
    | none => ⟨.error (.keyError "video_id"), true, [], []⟩

/-- What single-video processing returns when no exception escapes: the
result dict and whether the audio-download/transcription path was entered. -/
structure SingleResult where
  result : Dict
  downloadInvoked : Bool
deriving Inhabited

/-- `process_single_video` (lines 530-563): fetch metadata, try
`get_transcript(save_subtitle=True)`; a truthy transcript is updated with
`video_info` and returned; otherwise download audio (returning
`{"error": "Failed to download audio", **video_info}` when both providers
fail) and run `process_and_transcribe_audio`. -/
def process_single_video (w : World) (url : String) : Except PyError SingleResult :=
  let video_info := get_video_info w url
  match get_transcript w video_info true with
  | .error e => .error e
  | .ok (some t, _) => .ok ⟨dictUpdate t video_info, false⟩
  | .ok (none, _) =>
    match getItem video_info "video_id" with
    | .error e => .error e
    | .ok vid =>
      match download_audio w vid.asStr with
      | .error e => .error e
      | .ok none =>
        .ok ⟨dictUpdate [("error", .str "Failed to download audio")] video_info, true⟩
      | .ok (some audio_file) =>
        match (process_and_transcribe_audio w video_info audio_file).outcome with
        | .ok d => .ok ⟨d, true⟩
        | .error e => .error e

/-- The collection loop of `process_playlist` (lines 580-587): one
`process_single_video` call per entry, results appended in order; an
exception escaping any call aborts the whole loop. -/
def processPlaylistLoop (w : World) : List Dict → Except PyError (List Dict)
  | [] => Except.ok []
  | entry :: rest =>
    match getItem entry "video_id" with
    | .error e => .error e
    | .ok vid =>
      match process_single_video w ("https://www.youtube.com/watch?v=" ++ vid.asStr) with
      | .error e => .error e
      | .ok r =>
        match processPlaylistLoop w rest with
        | .error e => .error e
        | .ok rs => .ok (r.result :: rs)

/-- `process_playlist` (lines 565-587). -/
def process_playlist (w : World) (url : String) : Except PyError (List Dict) :=
  processPlaylistLoop w (w.playlistEntries url)

/-- `[0-9A-Za-z_-]`, the character class of the id patterns. -/
def isIdChar (c : Char) : Bool :=
  c.isAlphanum || c = '_' || c = '-'

/-- The maximal leading run of id characters (the group of
`(?:list=)([0-9A-Za-z_-]+)`). -/
def takeIdRun : List Char → List Char
  | [] => []
  | c :: rest => if isIdChar c then c :: takeIdRun rest else []

/-- `re.search("(?:list=)([0-9A-Za-z_-]+)", url)`: leftmost occurrence of
`list=` followed by at least one id character. -/
def findListEq : List Char → Option (List Char)
  | 'l' :: 'i' :: 's' :: 't' :: '=' :: tail =>
    let run := takeIdRun tail
    if run.isEmpty then findListEq ('i' :: 's' :: 't' :: '=' :: tail) else some run
  | _ :: rest => findListEq rest
  | [] => none

/-- `extract_playlist_id` (lines 150-164). -/
def extract_playlist_id (url : String) : Option String :=
  (findListEq url.toList).map String.mk

/-- Exactly 11 id characters from the front (the group
`([0-9A-Za-z_-]{11})`). -/
def takeId11 : Nat → List Char → Option (List Char)
  | 0, _ => some []
  | _ + 1, [] => none
  | n + 1, c :: rest =>
    if isIdChar c then (takeId11 n rest).map (c :: ·) else none

/-- One position of pattern `(?:v=|\/)([0-9A-Za-z_-]{11}).*`: the prefixes
`v=` and `/` have distinct first characters, so at most one alternative
applies at a position. -/
def pat1At : List Char → Option (List Char)
  | 'v' :: '=' :: tail => takeId11 11 tail
  | '/' :: tail => takeId11 11 tail
  | _ => none

/-- Leftmost match of the first pattern of `extract_video_id`. -/
def findPat1 : List Char → Option (List Char)
  | [] => none
  | c :: rest =>
    match pat1At (c :: rest) with
    | some g => some g
    | none => findPat1 rest

/-- One position of pattern `(?:embed\/|v\/|youtu.be\/)([0-9A-Za-z_-]{11})`
(the unescaped `.` of `youtu.be` matches any character); the three prefixes
have distinct first characters. -/
def pat2At : List Char → Option (List Char)
  | 'e' :: 'm' :: 'b' :: 'e' :: 'd' :: '/' :: tail => takeId11 11 tail
  | 'v' :: '/' :: tail => takeId11 11 tail
  | 'y' :: 'o' :: 'u' :: 't' :: 'u' :: _ :: 'b' :: 'e' :: '/' :: tail => takeId11 11 tail
  | _ => none

/-- Leftmost match of the second pattern of `extract_video_id`. -/
def findPat2 : List Char → Option (List Char)
  | [] => none
  | c :: rest =>
    match pat2At (c :: rest) with
    | some g => some g
    | none => findPat2 rest

/-- Pattern `^([0-9A-Za-z_-]{11})$`: the whole string is 11 id characters. -/
def pat3 (cs : List Char) : Option (List Char) :=
  if cs.length = 11 && cs.all isIdChar then some cs else none

/-- `extract_video_id` (lines 125-148): the three patterns in order, raising
`InvalidYoutubeVideoURL` when none matches. -/
def extract_video_id (url : String) : Except PyError String :=
  match findPat1 url.toList with
  | some g => Except.ok (String.mk g)
  | none =>
    match findPat2 url.toList with
    | some g => Except.ok (String.mk g)
    | none =>
      match pat3 url.toList with
      | some g => Except.ok (String.mk g)
      | none => Except.error .invalidYoutubeVideoURL

/-- The two possible shapes of a `process_url` return value. -/
abbrev UrlResult := Sum (List Dict) SingleResult

/-- `process_url` (lines 589-606): a url with a playlist id goes to
`process_playlist`, anything else to `process_single_video`.
`extract_video_id` is not called on this path. -/
def process_url (w : World) (url : String) : Except PyError UrlResult :=
  match extract_playlist_id url with
  | some _ => (process_playlist w url).map Sum.inl
  | none => (process_single_video w url).map Sum.inr


/-! ## Concrete instances for witnesses and counterexamples -/

/-- A base world: metadata fetch always fails, captions are unavailable,
both download providers fail, the audio cannot be decoded. -/
def w0 : World where
  maxRetries := 1
  outputDir := "out"
  today := "20260101"
  fetchMeta := fun _ _ => none
  capPreferred := fun _ => .error .disabled
  capAny := fun _ => .error .noTranscript
  ytdlpOk := fun _ => false
  cobalt := fun _ => .badStatus
  audioLen := fun _ => .error "cannot decode"
  encSize := fun _ _ _ => 0
  transcribe := fun _ _ _ => .ok []
  playlistEntries := fun _ => []

/-- Metadata dict of the running example video. -/
def dMeta : Dict :=
  [("video_id", .str "XuzK4YF69to"), ("video_title", .str "titleA"),
   ("channel_title", .str "chanA"), ("upload_date", .str "20230101")]

/-- Caption segments of the running example. -/
def segsCap : List Segment := [⟨"hello", 0, 2⟩, ⟨"world", 2, 3⟩]

/-- Whisper segments returned for the first chunk of the example audio. -/
def wsegsA : List WSeg := [⟨"hello", 0, 2⟩]

/-- Whisper segments returned for the second chunk of the example audio. -/
def wsegsB : List WSeg := [⟨"world", 600, 601⟩]

/-- A world where metadata succeeds and the preferred-language captions
query succeeds. -/
def wCap : World :=
  { w0 with
    fetchMeta := fun _ _ => some dMeta
    capPreferred := fun _ => .ok segsCap }

/-- A world where metadata succeeds, captions are unavailable and both
download providers fail. -/
def wDownloadFail : World :=
  { w0 with fetchMeta := fun _ _ => some dMeta }

/-- A world where metadata succeeds, captions are unavailable, the download
succeeds and the 700-second audio decodes and transcribes in two chunks. -/
def wTrans : World :=
  { w0 with
    fetchMeta := fun _ _ => some dMeta
    audioLen := fun _ => .ok 700000
    transcribe := fun _ s _ => if s = 0 then .ok wsegsA else .ok wsegsB }

/-- The chunk boundaries of the example two-chunk transcription run. -/
def subsC6 : List (Nat × Nat) := [(0, 600000), (600000, 700000)]

/-- The result dict of the example two-chunk transcription run. -/
def resultC6 : Dict :=
  [("video_id", .str "XuzK4YF69to"), ("video_title", .str "titleA"),
   ("channel_title", .str "chanA"),
   ("transcript", .arr ((wsegsA ++ wsegsB).map wsegToJson))]

/-- The file writes of the example two-chunk transcription run. -/
def wsC6 : List (String × Json) :=
  [("out/chanA_titleA_transcript.json", Json.obj resultC6)]

/-- First playlist entry of the example playlist. -/
def entryA : Dict := [("video_id", .str "AAAAAAAAAAA"), ("video_title", .str "tA")]

/-- Second playlist entry of the example playlist. -/
def entryB : Dict := [("video_id", .str "BBBBBBBBBBB"), ("video_title", .str "tB")]

/-- Metadata of the first (failing) playlist video. -/
def dMetaA : Dict :=
  [("video_id", .str "AAAAAAAAAAA"), ("video_title", .str "tA"), ("channel_title", .str "cA")]

/-- Metadata of the second (succeeding) playlist video. -/
def dMetaB : Dict :=
  [("video_id", .str "BBBBBBBBBBB"), ("video_title", .str "tB"), ("channel_title", .str "cB")]

/-- A playlist world whose first entry's metadata fetch always fails. -/
def wPlayBad : World :=
  { w0 with playlistEntries := fun _ => [entryA, entryB] }

/-- A playlist world where the first video fails to download (error result)
and the second succeeds through captions. -/
def wPlayMix : World :=
  { w0 with
    playlistEntries := fun _ => [entryA, entryB]
    fetchMeta := fun url _ =>
      if url = "https://www.youtube.com/watch?v=AAAAAAAAAAA" then some dMetaA
      else if url = "https://www.youtube.com/watch?v=BBBBBBBBBBB" then some dMetaB
      else none
    capPreferred := fun vid =>
      if vid = "BBBBBBBBBBB" then .ok segsCap else .error .disabled }

/-- The result list of the mixed example playlist run. -/
def rsC7 : List Dict :=
  [dictUpdate [("error", .str "Failed to download audio")] dMetaA,
   dictUpdate (captionsResult "cB" "tB" segsCap) dMetaB]

/-! ## Helper lemmas and claim theorems -/

lemma chunkShrink_ok (f : Nat → Nat → Nat) (M s : Nat) :
    ∀ fuel e e', s < e → chunkShrink f M s fuel e = .ok e' →
      s < e' ∧ e' ≤ e ∧ f s e' ≤ M := by
  intro fuel
  induction fuel with
  | zero => intro e e' _ h; simp [chunkShrink] at h
  | succ n ih =>
    intro e e' hse h
    simp only [chunkShrink] at h
    by_cases hle : f s e ≤ M
    · simp only [if_pos hle, Except.ok.injEq] at h
      exact h ▸ ⟨hse, le_refl _, hle⟩
    · simp only [if_neg hle] at h
      split at h
      · exact absurd h (by simp)
      · rename_i hsmall
        have hse' : s < s + (e - s) / 2 := by omega
        obtain ⟨h1, h2, h3⟩ := ih _ _ hse' h
        exact ⟨h1, by omega, h3⟩

lemma chunkShrink_no_fuelOut (f : Nat → Nat → Nat) (M s : Nat) :
    ∀ fuel e, e - s < fuel → chunkShrink f M s fuel e ≠ .error .fuelOut := by
  intro fuel
  induction fuel with
  | zero => intro e h; omega
  | succ n ih =>
    intro e hfe
    simp only [chunkShrink]
    by_cases hle : f s e ≤ M
    · simp [if_pos hle]
    · simp only [if_neg hle]
      split
      · simp
      · rename_i hsmall
        exact ih _ (by omega)

lemma chunkOuter_ok (f : Nat → Nat → Nat) (M dur D : Nat) (hdur : 0 < dur) :
    ∀ fuel s cs, s ≤ D → chunkOuter f M dur D fuel s = .ok cs →
      partitionB s D cs = true ∧ ∀ c ∈ cs, f c.1 c.2 ≤ M := by
  intro fuel
  induction fuel with
  | zero =>
    intro s cs hsD h
    simp only [chunkOuter] at h
    by_cases hlt : s < D
    · simp [if_pos hlt] at h
    · simp only [if_neg hlt, Except.ok.injEq] at h
      subst h
      refine ⟨?_, by simp⟩
      simp [partitionB]; omega
  | succ n ih =>
    intro s cs hsD h
    simp only [chunkOuter] at h
    by_cases hlt : s < D
    · simp only [if_pos hlt] at h
      split at h
      · exact absurd h (by simp)
      · rename_i e hshr
        have hse0 : s < min (s + dur) D := by omega
        obtain ⟨hse, heE, hsz⟩ := chunkShrink_ok f M s _ _ _ hse0 hshr
        have heD : e ≤ D := le_trans heE (by omega)
        split at h
        · exact absurd h (by simp)
        · rename_i rest hrec
          simp only [Except.ok.injEq] at h
          subst h
          obtain ⟨hpart, hall⟩ := ih e rest heD hrec
          refine ⟨?_, ?_⟩
          · simp [partitionB, hse, heD, hpart]
          · intro c hc
            rcases List.mem_cons.mp hc with hc | hc
            · subst hc; exact hsz
            · exact hall c hc
    · simp only [if_neg hlt, Except.ok.injEq] at h
      subst h
      refine ⟨?_, by simp⟩
      simp [partitionB]; omega

lemma chunkOuter_no_fuelOut (f : Nat → Nat → Nat) (M dur D : Nat) (hdur : 0 < dur) :
    ∀ fuel s, D - s ≤ fuel → chunkOuter f M dur D fuel s ≠ .error .fuelOut := by
  intro fuel
  induction fuel with
  | zero =>
    intro s hfe
    simp only [chunkOuter]
    have : ¬ s < D := by omega
    simp [if_neg this]
  | succ n ih =>
    intro s hfe
    simp only [chunkOuter]
    by_cases hlt : s < D
    · simp only [if_pos hlt]
      split
      · rename_i err hshr
        have hnf := chunkShrink_no_fuelOut f M s (min (s + dur) D - s + 1) (min (s + dur) D)
          (by omega)
        rw [hshr] at hnf
        intro hcontra
        injection hcontra with hc
        exact hnf (by rw [hc])
      · rename_i e hshr
        have hse0 : s < min (s + dur) D := by omega
        obtain ⟨hse, heE, _⟩ := chunkShrink_ok f M s _ _ _ hse0 hshr
        split
        · rename_i err hrec
          have hne := ih e (by omega)
          rw [hrec] at hne
          intro hcontra
          injection hcontra with hc
          exact hne (by rw [hc])
        · simp
    · simp [if_neg hlt]

/-- C1: for every encoder behaviour and audio duration `D`, when the chunking
loop of `process_and_transcribe_audio` succeeds, its accepted chunks partition
`[0, D)` with no gaps and no overlaps (the first starts at 0, each starts
where the previous ended, the last ends at `D`), and every accepted chunk's
encoded size is at most `MAX_FILE_SIZE` at the moment it is accepted. -/
theorem chunks_partition_and_fit (f : Nat → Nat → Nat) (D : Nat) (cs : List (Nat × Nat))
    (h : processChunks f MAX_FILE_SIZE INITIAL_CHUNK_DURATION D = .ok cs) :
    partitionB 0 D cs = true ∧ ∀ c ∈ cs, f c.1 c.2 ≤ MAX_FILE_SIZE :=
  chunkOuter_ok f MAX_FILE_SIZE INITIAL_CHUNK_DURATION D
    (by norm_num [INITIAL_CHUNK_DURATION]) D 0 cs (Nat.zero_le D) h

/-- Witness for C1 at a concrete 1200.001-second audio whose slices encode to
one byte per millisecond: three chunks are produced and the theorem applies. -/
theorem chunks_partition_and_fit_witness :
    partitionB 0 1200001 [(0, 600000), (600000, 1200000), (1200000, 1200001)] = true ∧
    ∀ c ∈ [((0 : Nat), (600000 : Nat)), (600000, 1200000), (1200000, 1200001)],
      (fun s e => e - s) c.1 c.2 ≤ MAX_FILE_SIZE :=
  chunks_partition_and_fit (fun s e => e - s) 1200001
    [(0, 600000), (600000, 1200000), (1200000, 1200001)] (by rfl)

/-- C2: when the encoded candidate slice exceeds the ceiling, one step of the
inner loop sets `end = start + (end - start) / 2` and retries, except that if
the shrunken duration falls below 1000 ms the loop raises
`ValueError("Unable to create a small enough chunk")` (`chunkTooSmall`)
instead of emitting a chunk; and the chunking loop never loops forever
(the fuel supplied by `processChunks` is never exhausted). -/
theorem chunk_shrink_step (f : Nat → Nat → Nat) (s e fuel D : Nat)
    (h : MAX_FILE_SIZE < f s e) :
    chunkShrink f MAX_FILE_SIZE s (fuel + 1) e =
      (if (e - s) / 2 < 1000 then .error .chunkTooSmall
       else chunkShrink f MAX_FILE_SIZE s fuel (s + (e - s) / 2)) ∧
    processChunks f MAX_FILE_SIZE INITIAL_CHUNK_DURATION D ≠ .error .fuelOut := by
  constructor
  · simp only [chunkShrink, if_neg (Nat.not_le.mpr h)]
    have : s + (e - s) / 2 - s = (e - s) / 2 := by omega
    rw [this]
  · exact chunkOuter_no_fuelOut f MAX_FILE_SIZE INITIAL_CHUNK_DURATION D
      (by norm_num [INITIAL_CHUNK_DURATION]) D 0 (by omega)

/-- Witness for C2: an incompressible 1500 ms slice (every encoding one byte
over the ceiling) halves to 750 ms, below the one-second minimum, and the
step yields `chunkTooSmall`. -/
theorem chunk_shrink_step_witness :
    chunkShrink (fun _ _ => MAX_FILE_SIZE + 1) MAX_FILE_SIZE 0 1 1500 =
      (if (1500 - 0) / 2 < 1000 then .error .chunkTooSmall
       else chunkShrink (fun _ _ => MAX_FILE_SIZE + 1) MAX_FILE_SIZE 0 0 (0 + (1500 - 0) / 2)) ∧
    processChunks (fun _ _ => MAX_FILE_SIZE + 1) MAX_FILE_SIZE INITIAL_CHUNK_DURATION 0 ≠
      .error .fuelOut :=
  chunk_shrink_step (fun _ _ => MAX_FILE_SIZE + 1) 0 1500 0 0 (by norm_num [MAX_FILE_SIZE])

lemma jsonToSeg_segToJson (s : Segment) : jsonToSeg (segToJson s) = some s := rfl

lemma decodeSegs_map_segToJson (l : List Segment) : decodeSegs (l.map segToJson) = some l := by
  induction l with
  | nil => rfl
  | cons s rest ih => simp [decodeSegs, jsonToSeg_segToJson, ih]

lemma decode_encode_transcriptFile (t : TranscriptFile) :
    decodeTranscriptFile (encodeTranscriptFile t) = some t := by
  simp [decodeTranscriptFile, encodeTranscriptFile, dictGet, decodeSegs_map_segToJson]

lemma dictGet_dictSet_self (b : Dict) (k : String) (v : Json) :
    dictGet (dictSet b k v) k = some v := by
  induction b with
  | nil => simp [dictSet, dictGet]
  | cons p rest ih =>
    by_cases hk : (p.1 == k) = true
    · simp [dictSet, dictGet, hk]
    · simp only [Bool.not_eq_true] at hk
      simp [dictSet, dictGet, hk, ih]

lemma dictGet_dictSet_ne (b : Dict) (k k' : String) (v : Json) (hne : k' ≠ k) :
    dictGet (dictSet b k v) k' = dictGet b k' := by
  have hkk' : (k == k') = false := beq_false_of_ne (Ne.symm hne)
  induction b with
  | nil => simp [dictSet, dictGet, hkk']
  | cons p rest ih =>
    by_cases hk : (p.1 == k) = true
    · have hpk' : (p.1 == k') = false := by
        rw [beq_iff_eq] at hk
        exact beq_false_of_ne (by rw [hk]; exact Ne.symm hne)
      simp [dictSet, dictGet, hk, hkk', hpk']
    · simp only [Bool.not_eq_true] at hk
      by_cases hpk' : (p.1 == k') = true
      · simp [dictSet, dictGet, hk, hpk']
      · simp only [Bool.not_eq_true] at hpk'
        simp [dictSet, dictGet, hk, hpk', ih]

lemma dictGet_dictUpdate_not_mem (b : Dict) (d : Dict) (k : String)
    (h : ∀ p ∈ d, p.1 ≠ k) : dictGet (dictUpdate b d) k = dictGet b k := by
  induction d generalizing b with
  | nil => rfl
  | cons p rest ih =>
    simp only [dictUpdate]
    rw [ih _ (fun q hq => h q (List.mem_cons_of_mem _ hq))]
    exact dictGet_dictSet_ne b p.1 k p.2 (Ne.symm (h p (List.mem_cons_self _ _)))

lemma dictGet_none_forall (d : Dict) (k : String) (h : dictGet d k = none) :
    ∀ p ∈ d, p.1 ≠ k := by
  induction d with
  | nil => intro p hp; simp at hp
  | cons q rest ih =>
    intro p hp hk
    subst hk
    by_cases hq : (q.1 == p.1) = true
    · simp [dictGet, hq] at h
    · simp only [Bool.not_eq_true] at hq
      simp only [dictGet, hq, Bool.false_eq_true, if_false] at h
      rcases List.mem_cons.mp hp with hqp | hp'
      · rw [hqp] at hq; simp at hq
      · exact ih h p hp' rfl

lemma dictGet_dictUpdate_of_get (b d : Dict) (k : String) (v : Json)
    (hnd : (d.map Prod.fst).Nodup) (h : dictGet d k = some v) :
    dictGet (dictUpdate b d) k = some v := by
  induction d generalizing b with
  | nil => simp [dictGet] at h
  | cons p rest ih =>
    simp only [List.map_cons, List.nodup_cons] at hnd
    simp only [dictUpdate]
    by_cases hk : (p.1 == k) = true
    · simp only [dictGet, hk, if_true, Option.some.injEq] at h
      subst h
      rw [beq_iff_eq] at hk
      rw [dictGet_dictUpdate_not_mem]
      · rw [← hk]; exact dictGet_dictSet_self b p.1 p.2
      · intro q hq hqk
        exact hnd.1 (hk ▸ hqk ▸ List.mem_map_of_mem Prod.fst hq)
    · simp only [Bool.not_eq_true] at hk
      simp only [dictGet, hk, Bool.false_eq_true, if_false] at h
      exact ih _ hnd.2 h

lemma getItem_of_get (d : Dict) (k : String) (v : Json) (h : dictGet d k = some v) :
    getItem d k = .ok v := by simp [getItem, h]

/-- C3 counterexample: with the metadata-fetch retry budget exhausted,
`get_video_info` returns the empty dict and `process_single_video` raises
`KeyError("video_id")` — an exception, not the structured failure result the
claim states. -/
theorem metadata_exhaustion_raises :
    get_video_info w0 "https://www.youtube.com/watch?v=XuzK4YF69to" = [] ∧
    process_single_video w0 "https://www.youtube.com/watch?v=XuzK4YF69to" =
      Except.error (.keyError "video_id") :=
  ⟨rfl, rfl⟩

/-- C3 amended: when captions are unavailable and neither download provider
retrieves the audio, `process_single_video` returns the structured failure
dict `{"error": "Failed to download audio", **video_info}` — no exception —
carrying every metadata field and the error description; but when the
metadata-fetch retry budget is exhausted the method raises
`KeyError("video_id")` instead of returning a failure result. -/
theorem download_failure_error_result (w : World) (url vid : String) (d : Dict)
    (hd : get_video_info w url = d)
    (h1 : dictGet d "video_id" = some (.str vid))
    (h2 : ∃ c, dictGet d "channel_title" = some c)
    (h3 : ∃ t, dictGet d "video_title" = some t)
    (hnd : (d.map Prod.fst).Nodup)
    (herr : dictGet d "error" = none)
    (hcapP : w.capPreferred vid = .error .disabled ∨ w.capPreferred vid = .error .noTranscript)
    (hcapA : ∃ m, w.capAny vid = .error m)
    (hyt : w.ytdlpOk vid = false)
    (hcob : w.cobalt vid = .badStatus ∨ w.cobalt vid = .valueErr) :
    (process_single_video w url =
      .ok ⟨dictUpdate [("error", .str "Failed to download audio")] d, true⟩) ∧
    dictGet (dictUpdate [("error", .str "Failed to download audio")] d) "error" =
      some (.str "Failed to download audio") ∧
    (∀ k v, dictGet d k = some v →
      dictGet (dictUpdate [("error", .str "Failed to download audio")] d) k = some v) ∧
    (∀ w' url', get_video_info w' url' = [] →
      process_single_video w' url' = .error (.keyError "video_id")) := by
  obtain ⟨c, h2⟩ := h2
  obtain ⟨t, h3⟩ := h3
  obtain ⟨m, hcapA⟩ := hcapA
  have hitem1 : getItem d "video_id" = .ok (.str vid) := getItem_of_get d _ _ h1
  have hitem2 : getItem d "channel_title" = .ok c := getItem_of_get d _ _ h2
  have hitem3 : getItem d "video_title" = .ok t := getItem_of_get d _ _ h3
  have hgt : get_transcript w d true = .ok (none, []) := by
    rcases hcapP with hp | hp <;>
      simp [get_transcript, hitem1, hitem2, hitem3, Json.asStr, hp, hcapA]
  have hdl : download_audio w vid = .ok none := by
    rcases hcob with hc | hc <;> simp [download_audio, hyt, hc]
  refine ⟨?_, ?_, ?_, ?_⟩
  · simp [process_single_video, hd, hgt, hitem1, Json.asStr, hdl]
  · rw [dictGet_dictUpdate_not_mem _ _ _ (dictGet_none_forall d _ herr)]
    rfl
  · intro k v hkv
    exact dictGet_dictUpdate_of_get _ d k v hnd hkv
  · intro w' url' hmeta
    simp [process_single_video, hmeta, get_transcript, getItem, dictGet]

/-- Witness for the amended C3 at a concrete world where both providers fail. -/
theorem download_failure_error_result_witness :
    (process_single_video wDownloadFail "u" =
      .ok ⟨dictUpdate [("error", .str "Failed to download audio")] dMeta, true⟩) ∧
    dictGet (dictUpdate [("error", .str "Failed to download audio")] dMeta) "error" =
      some (.str "Failed to download audio") ∧
    (∀ k v, dictGet dMeta k = some v →
      dictGet (dictUpdate [("error", .str "Failed to download audio")] dMeta) k = some v) ∧
    (∀ w' url', get_video_info w' url' = [] →
      process_single_video w' url' = .error (.keyError "video_id")) :=
  download_failure_error_result wDownloadFail "u" "XuzK4YF69to" dMeta rfl rfl
    ⟨_, rfl⟩ ⟨_, rfl⟩ (by decide) rfl (Or.inl rfl) ⟨_, rfl⟩ rfl (Or.inl rfl)

/-- C5: when the captions provider returns a transcript — in a preferred
language or unrestricted — `process_single_video` returns that captions
result (updated with the metadata fields, its transcript entries intact) and
never invokes the audio-download/chunked-transcription path. -/
theorem captions_path_skips_download (w : World) (url vid : String) (c t : Json) (d : Dict)
    (segs : List Segment)
    (hd : get_video_info w url = d)
    (h1 : dictGet d "video_id" = some (.str vid))
    (h2 : dictGet d "channel_title" = some c)
    (h3 : dictGet d "video_title" = some t)
    (hcap : w.capPreferred vid = .ok segs ∨
      ((w.capPreferred vid = .error .disabled ∨ w.capPreferred vid = .error .noTranscript) ∧
        w.capAny vid = .ok segs))
    (htr : dictGet d "transcript" = none) :
    process_single_video w url =
      .ok ⟨dictUpdate (captionsResult c.asStr t.asStr segs) d, false⟩ ∧
    dictGet (dictUpdate (captionsResult c.asStr t.asStr segs) d) "transcript" =
      some (.arr (segs.map segToJson)) := by
  have hitem1 : getItem d "video_id" = .ok (.str vid) := getItem_of_get d _ _ h1
  have hitem2 : getItem d "channel_title" = .ok c := getItem_of_get d _ _ h2
  have hitem3 : getItem d "video_title" = .ok t := getItem_of_get d _ _ h3
  have hgt : get_transcript w d true =
      .ok (capSuccess w d true c.asStr t.asStr vid segs) := by
    rcases hcap with hp | ⟨hp | hp, ha⟩
    · simp [get_transcript, hitem1, hitem2, hitem3, Json.asStr, hp]
    · simp [get_transcript, hitem1, hitem2, hitem3, Json.asStr, hp, ha]
    · simp [get_transcript, hitem1, hitem2, hitem3, Json.asStr, hp, ha]
  constructor
  · simp [process_single_video, hd, hgt, capSuccess]
  · rw [dictGet_dictUpdate_not_mem _ _ _ (dictGet_none_forall d _ htr)]
    rfl

/-- Witness for C5 at a concrete world with preferred-language captions. -/
theorem captions_path_skips_download_witness :
    process_single_video wCap "u" =
      .ok ⟨dictUpdate (captionsResult "chanA" "titleA" segsCap) dMeta, false⟩ ∧
    dictGet (dictUpdate (captionsResult "chanA" "titleA" segsCap) dMeta) "transcript" =
      some (.arr (segsCap.map segToJson)) :=
  captions_path_skips_download wCap "u" "XuzK4YF69to" (.str "chanA") (.str "titleA")
    dMeta segsCap rfl rfl rfl rfl (Or.inl rfl) rfl

/-- C9: the captions lookup queries the provider with the ordered Chinese
preference list first; exactly on `TranscriptsDisabled` or
`NoTranscriptAvailable` it retries unrestricted; a failure of the
unrestricted query is not surfaced as an error but yields `None`
(fall-through to the transcription path), while any other failure of the
first query propagates as an exception. -/
theorem captions_preference_order (w : World) (d : Dict) (vid : String) (c t : Json)
    (save : Bool)
    (h1 : dictGet d "video_id" = some (.str vid))
    (h2 : dictGet d "channel_title" = some c)
    (h3 : dictGet d "video_title" = some t) :
    (∀ segs, w.capPreferred vid = .ok segs →
      get_transcript w d save = .ok (capSuccess w d save c.asStr t.asStr vid segs)) ∧
    ((w.capPreferred vid = .error .disabled ∨ w.capPreferred vid = .error .noTranscript) →
      (∀ segs, w.capAny vid = .ok segs →
        get_transcript w d save = .ok (capSuccess w d save c.asStr t.asStr vid segs)) ∧
      (∀ e, w.capAny vid = .error e → get_transcript w d save = .ok (none, []))) ∧
    (∀ m, w.capPreferred vid = .error (.other m) →
      get_transcript w d save = .error (.providerError m)) := by
  have hitem1 : getItem d "video_id" = .ok (.str vid) := getItem_of_get d _ _ h1
  have hitem2 : getItem d "channel_title" = .ok c := getItem_of_get d _ _ h2
  have hitem3 : getItem d "video_title" = .ok t := getItem_of_get d _ _ h3
  refine ⟨?_, ?_, ?_⟩
  · intro segs hp
    simp [get_transcript, hitem1, hitem2, hitem3, Json.asStr, hp]
  · intro hp
    constructor
    · intro segs ha
      rcases hp with hp | hp <;>
        simp [get_transcript, hitem1, hitem2, hitem3, Json.asStr, hp, ha]
    · intro e ha
      rcases hp with hp | hp <;>
        simp [get_transcript, hitem1, hitem2, hitem3, Json.asStr, hp, ha]
  · intro m hp
    simp [get_transcript, hitem1, hitem2, hitem3, Json.asStr, hp]

/-- Witness for C9 at the concrete captions world. -/
theorem captions_preference_order_witness :
    (∀ segs, wCap.capPreferred "XuzK4YF69to" = .ok segs →
      get_transcript wCap dMeta true =
        .ok (capSuccess wCap dMeta true "chanA" "titleA" "XuzK4YF69to" segs)) ∧
    ((wCap.capPreferred "XuzK4YF69to" = .error .disabled ∨
        wCap.capPreferred "XuzK4YF69to" = .error .noTranscript) →
      (∀ segs, wCap.capAny "XuzK4YF69to" = .ok segs →
        get_transcript wCap dMeta true =
          .ok (capSuccess wCap dMeta true "chanA" "titleA" "XuzK4YF69to" segs)) ∧
      (∀ e, wCap.capAny "XuzK4YF69to" = .error e →
        get_transcript wCap dMeta true = .ok (none, []))) ∧
    (∀ m, wCap.capPreferred "XuzK4YF69to" = .error (.other m) →
      get_transcript wCap dMeta true = .error (.providerError m)) :=
  captions_preference_order wCap dMeta "XuzK4YF69to" (.str "chanA") (.str "titleA")
    true rfl rfl rfl

lemma transcribeChunks_flatten (w : World) (audio_file : String) :
    ∀ cs segs, transcribeChunks w audio_file cs = .ok segs →
      ∃ perChunk : List (List WSeg),
        List.Forall₂ (fun c cseg => w.transcribe audio_file c.1 c.2 = .ok cseg) cs perChunk ∧
        segs = perChunk.flatten := by
  intro cs
  induction cs with
  | nil =>
    intro segs h
    simp only [transcribeChunks, Except.ok.injEq] at h
    exact ⟨[], List.Forall₂.nil, by simp [← h]⟩
  | cons c rest ih =>
    intro segs h
    simp only [transcribeChunks] at h
    split at h
    · exact absurd h (by simp)
    · rename_i cseg hc
      split at h
      · exact absurd h (by simp)
      · rename_i more hrest
        simp only [Except.ok.injEq] at h
        obtain ⟨perChunk, hfa, hflat⟩ := ih more hrest
        exact ⟨cseg :: perChunk, List.Forall₂.cons hc hfa, by simp [← h, hflat]⟩

/-- C6: on a successful transcription-path run, the accepted chunks are
submitted to the transcription API in ascending order (they partition
`[0, D)`), and the result's transcript field is the concatenation of the
per-chunk segment sequences in submission order, each segment mapped to
`{text, start, duration = end - start}`. -/
theorem transcript_concat_in_order (w : World) (video_info : Dict) (audio_file : String)
    (result : Dict) (subs : List (Nat × Nat)) (ws : List (String × Json))
    (h : patBody w video_info audio_file = .ok (result, subs, ws)) :
    ∃ D segs perChunk,
      w.audioLen audio_file = .ok D ∧
      processChunks (w.encSize audio_file) MAX_FILE_SIZE INITIAL_CHUNK_DURATION D = .ok subs ∧
      partitionB 0 D subs = true ∧
      List.Forall₂ (fun c cseg => w.transcribe audio_file c.1 c.2 = .ok cseg) subs perChunk ∧
      segs = perChunk.flatten ∧
      dictGet result "transcript" = some (.arr (segs.map wsegToJson)) := by
  unfold patBody at h
  split at h
  · exact absurd h (by simp)
  · rename_i D hD
    split at h
    · exact absurd h (by simp)
    · exact absurd h (by simp)
    · rename_i cs hcs
      split at h
      · exact absurd h (by simp)
      · rename_i segs hsegs
        split at h
        · exact absurd h (by simp)
        · rename_i vid hvid
          split at h
          · exact absurd h (by simp)
          · rename_i title htitle
            split at h
            · exact absurd h (by simp)
            · rename_i chan hchan
              simp only [Except.ok.injEq, Prod.mk.injEq] at h
              obtain ⟨hres, hsubs, hws⟩ := h
              subst hres hsubs
              obtain ⟨perChunk, hfa, hflat⟩ := transcribeChunks_flatten w audio_file cs segs hsegs
              exact ⟨D, segs, perChunk, hD, hcs,
                (chunkOuter_ok (w.encSize audio_file) MAX_FILE_SIZE INITIAL_CHUNK_DURATION D
                  (by norm_num [INITIAL_CHUNK_DURATION]) D 0 cs (Nat.zero_le D) hcs).1,
                hfa, hflat, rfl⟩

/-- Witness for C6: the example audio transcribed in two chunks. -/
theorem transcript_concat_in_order_witness :
    ∃ D segs perChunk,
      wTrans.audioLen "out/XuzK4YF69to.mp3" = .ok D ∧
      processChunks (wTrans.encSize "out/XuzK4YF69to.mp3") MAX_FILE_SIZE
        INITIAL_CHUNK_DURATION D = .ok subsC6 ∧
      partitionB 0 D subsC6 = true ∧
      List.Forall₂
        (fun c cseg => wTrans.transcribe "out/XuzK4YF69to.mp3" c.1 c.2 = .ok cseg)
        subsC6 perChunk ∧
      segs = perChunk.flatten ∧
      dictGet resultC6 "transcript" = some (.arr (segs.map wsegToJson)) :=
  transcript_concat_in_order wTrans dMeta "out/XuzK4YF69to.mp3" resultC6 subsC6 wsC6 (by rfl)

lemma getItem_ok (d : Dict) (k : String) (v : Json) (h : getItem d k = .ok v) :
    dictGet d k = some v := by
  unfold getItem at h
  split at h
  · rename_i v' hv
    simp only [Except.ok.injEq] at h
    subst h
    exact hv
  · exact absurd h (by simp)

/-- C7 counterexample: a playlist whose first entry's video has its metadata
fetch fail: `process_single_video` raises `KeyError` and `process_playlist`
aborts with that exception instead of returning a two-element result list
with an error-marked first element. -/
theorem playlist_abort_counterexample :
    wPlayBad.playlistEntries "p" = [entryA, entryB] ∧
    process_playlist wPlayBad "p" = .error (.keyError "video_id") :=
  ⟨rfl, rfl⟩

/-- C7 amended: whenever every per-video run returns a result dict (error
dicts included), `process_playlist` returns exactly one result per
enumerated entry, in enumeration order; but a per-video run that raises an
exception (for example after exhausted metadata retries) aborts the whole
playlist run with that exception. -/
theorem playlist_results_in_order (w : World) (url : String) :
    (∀ rs, process_playlist w url = .ok rs →
      List.Forall₂
        (fun entry r => ∃ vid b, dictGet entry "video_id" = some vid ∧
          process_single_video w ("https://www.youtube.com/watch?v=" ++ vid.asStr) =
            .ok ⟨r, b⟩)
        (w.playlistEntries url) rs) ∧
    (∀ entry rest e vid, w.playlistEntries url = entry :: rest →
      dictGet entry "video_id" = some vid →
      process_single_video w ("https://www.youtube.com/watch?v=" ++ vid.asStr) = .error e →
      process_playlist w url = .error e) := by
  constructor
  · unfold process_playlist
    generalize w.playlistEntries url = entries
    induction entries with
    | nil =>
      intro rs h
      simp only [processPlaylistLoop, Except.ok.injEq] at h
      subst h
      exact .nil
    | cons entry rest ih =>
      intro rs h
      simp only [processPlaylistLoop] at h
      split at h
      · exact absurd h (by simp)
      · rename_i vid hvid
        split at h
        · exact absurd h (by simp)
        · rename_i r hr
          split at h
          · exact absurd h (by simp)
          · rename_i rs' hrs
            simp only [Except.ok.injEq] at h
            subst h
            exact .cons ⟨vid, r.downloadInvoked, getItem_ok _ _ _ hvid, hr⟩ (ih rs' hrs)
  · intro entry rest e vid hent hvid hfail
    unfold process_playlist
    rw [hent]
    simp only [processPlaylistLoop, getItem, hvid, hfail]

/-- Witness for the amended C7: a two-entry playlist with one
download-failing and one captions-succeeding video yields both results in
enumeration order, and a playlist whose first video raises aborts. -/
theorem playlist_results_in_order_witness :
    List.Forall₂
      (fun entry r => ∃ vid b, dictGet entry "video_id" = some vid ∧
        process_single_video wPlayMix ("https://www.youtube.com/watch?v=" ++ vid.asStr) =
          .ok ⟨r, b⟩)
      (wPlayMix.playlistEntries "p") rsC7 ∧
    process_playlist wPlayBad "p" = .error (.keyError "video_id") :=
  ⟨(playlist_results_in_order wPlayMix "p").1 rsC7 (by rfl),
   (playlist_results_in_order wPlayBad "p").2 entryA [entryB] (.keyError "video_id")
     (.str "AAAAAAAAAAA") rfl rfl (by rfl)⟩

/-- C8 counterexample: a transcription-path run persists its transcript as an
object with keys `{video_id, video_title, channel_title, transcript}` — no
`channel_id` key — at `<output_dir>/<channel>_<title>_transcript.json`,
not the claimed object shape or the claimed channel-directory path. -/
theorem transcription_write_shape_counterexample :
    patBody wTrans dMeta "out/XuzK4YF69to.mp3" = .ok (resultC6, subsC6, wsC6) ∧
    wsC6.map Prod.fst = ["out/chanA_titleA_transcript.json"] ∧
    jsonKeys (Json.obj resultC6) =
      ["video_id", "video_title", "channel_title", "transcript"] ∧
    dictGet resultC6 "channel_id" = none :=
  ⟨rfl, rfl, rfl, rfl⟩

/-- C8 amended: the captions-path writer (`get_transcript` with
`save_subtitle`) persists exactly the `{channel_id, video_title, transcript}`
object at `<output_dir>/<channel_title>/<date>_<video_id>.json`, and reading
that file back reproduces the same structure; the transcription-path writer
instead persists `{video_id, video_title, channel_title, transcript}` at
`<output_dir>/<channel_title>_<video_title>_transcript.json`. -/
theorem transcript_persistence (w : World) (d : Dict) (vid : String) (c t : Json)
    (segs : List Segment)
    (h1 : dictGet d "video_id" = some (.str vid))
    (h2 : dictGet d "channel_title" = some c)
    (h3 : dictGet d "video_title" = some t)
    (hcap : w.capPreferred vid = .ok segs) :
    get_transcript w d true =
      .ok (some (captionsResult c.asStr t.asStr segs),
        [(subtitlePath w d c.asStr vid, Json.obj (captionsResult c.asStr t.asStr segs))]) ∧
    Json.obj (captionsResult c.asStr t.asStr segs) =
      encodeTranscriptFile ⟨c.asStr, t.asStr, segs⟩ ∧
    decodeTranscriptFile (Json.obj (captionsResult c.asStr t.asStr segs)) =
      some ⟨c.asStr, t.asStr, segs⟩ ∧
    (∀ vi af res subs wr, patBody w vi af = .ok (res, subs, wr) →
      jsonKeys (Json.obj res) =
        ["video_id", "video_title", "channel_title", "transcript"] ∧
      ∃ chan title, keyStr vi "channel_title" = .ok chan ∧
        keyStr vi "video_title" = .ok title ∧
        wr = [(w.outputDir ++ "/" ++ chan ++ "_" ++ title ++ "_transcript.json",
          Json.obj res)]) := by
  have hitem1 : getItem d "video_id" = .ok (.str vid) := getItem_of_get d _ _ h1
  have hitem2 : getItem d "channel_title" = .ok c := getItem_of_get d _ _ h2
  have hitem3 : getItem d "video_title" = .ok t := getItem_of_get d _ _ h3
  refine ⟨?_, rfl, ?_, ?_⟩
  · simp [get_transcript, hitem1, hitem2, hitem3, Json.asStr, hcap, capSuccess]
  · exact decode_encode_transcriptFile ⟨c.asStr, t.asStr, segs⟩
  · intro vi af res subs wr h
    unfold patBody at h
    split at h
    · exact absurd h (by simp)
    · split at h
      · exact absurd h (by simp)
      · exact absurd h (by simp)
      · split at h
        · exact absurd h (by simp)
        · split at h
          · exact absurd h (by simp)
          · split at h
            · exact absurd h (by simp)
            · rename_i title htitle
              split at h
              · exact absurd h (by simp)
              · rename_i chan hchan
                simp only [Except.ok.injEq, Prod.mk.injEq] at h
                obtain ⟨hres, _, hws⟩ := h
                subst hres
                exact ⟨rfl, chan, title, hchan, htitle, hws.symm⟩

/-- Witness for the amended C8: the captions world persists the example
transcript at `out/chanA/20230101_XuzK4YF69to.json` and it round-trips. -/
theorem transcript_persistence_witness :
    get_transcript wCap dMeta true =
      .ok (some (captionsResult "chanA" "titleA" segsCap),
        [(subtitlePath wCap dMeta "chanA" "XuzK4YF69to",
          Json.obj (captionsResult "chanA" "titleA" segsCap))]) ∧
    Json.obj (captionsResult "chanA" "titleA" segsCap) =
      encodeTranscriptFile ⟨"chanA", "titleA", segsCap⟩ ∧
    decodeTranscriptFile (Json.obj (captionsResult "chanA" "titleA" segsCap)) =
      some ⟨"chanA", "titleA", segsCap⟩ ∧
    (∀ vi af res subs wr, patBody wCap vi af = .ok (res, subs, wr) →
      jsonKeys (Json.obj res) =
        ["video_id", "video_title", "channel_title", "transcript"] ∧
      ∃ chan title, keyStr vi "channel_title" = .ok chan ∧
        keyStr vi "video_title" = .ok title ∧
        wr = [(wCap.outputDir ++ "/" ++ chan ++ "_" ++ title ++ "_transcript.json",
          Json.obj res)]) :=
  transcript_persistence wCap dMeta "XuzK4YF69to" (.str "chanA") (.str "titleA")
    segsCap rfl rfl rfl rfl

/-- C10 counterexample: called with a `video_info` that lacks `"video_id"`
and an undecodable audio file, the `except` clause of
`process_and_transcribe_audio` itself raises `KeyError`, so the method does
propagate an exception for some inputs. -/
theorem pat_raises_counterexample :
    (process_and_transcribe_audio w0 [] "a.mp3").outcome =
      .error (.keyError "video_id") :=
  rfl

/-- C10 amended: provided `video_info` contains a `"video_id"` entry,
`process_and_transcribe_audio` never propagates an exception — on any
internal error it returns `{"video_id": ..., "error": str(e)}` — and in
every case, success or failure, the `finally` clause removes the source
audio file before returning. -/
theorem pat_no_raise_and_cleanup (w : World) (video_info : Dict) (audio_file : String)
    (v : Json) (hv : dictGet video_info "video_id" = some v) :
    (∃ res, (process_and_transcribe_audio w video_info audio_file).outcome = .ok res) ∧
    (∀ msg, patBody w video_info audio_file = .error msg →
      (process_and_transcribe_audio w video_info audio_file).outcome =
        .ok [("video_id", v), ("error", .str msg)]) ∧
    (process_and_transcribe_audio w video_info audio_file).audioRemoved = true := by
  refine ⟨?_, ?_, ?_⟩
  · cases hb : patBody w video_info audio_file with
    | ok r => exact ⟨r.1, by simp [process_and_transcribe_audio, hb]⟩
    | error msg =>
      exact ⟨[("video_id", v), ("error", .str msg)],
        by simp [process_and_transcribe_audio, hb, hv]⟩
  · intro msg hb
    simp [process_and_transcribe_audio, hb, hv]
  · cases hb : patBody w video_info audio_file with
    | ok r => simp [process_and_transcribe_audio, hb]
    | error msg => simp [process_and_transcribe_audio, hb, hv]

/-- Witness for the amended C10: the base world fails to decode the audio and
the method returns the error dict with the audio file removed. -/
theorem pat_no_raise_and_cleanup_witness :
    (∃ res, (process_and_transcribe_audio w0 dMeta "a.mp3").outcome = .ok res) ∧
    (∀ msg, patBody w0 dMeta "a.mp3" = .error msg →
      (process_and_transcribe_audio w0 dMeta "a.mp3").outcome =
        .ok [("video_id", .str "XuzK4YF69to"), ("error", .str msg)]) ∧
    (process_and_transcribe_audio w0 dMeta "a.mp3").audioRemoved = true :=
  pat_no_raise_and_cleanup w0 dMeta "a.mp3" (.str "XuzK4YF69to") rfl

/-- C4: the failing input of the claim.  For a URL with neither a playlist id
nor an extractable 11-character video id, `extract_video_id` raises
`InvalidYoutubeVideoURL` — and the repository's own test
(`test_process_url_invalid`) expects `process_url` to raise it — but
`process_url` never calls `extract_video_id`: it falls through to
`process_single_video`, which raises `KeyError("video_id")` from the empty
metadata dict once the metadata fetch fails on the invalid URL. -/
theorem process_url_invalid_url_divergence :
    extract_playlist_id "https://www.example.com" = none ∧
    extract_video_id "https://www.example.com" = .error .invalidYoutubeVideoURL ∧
    process_url w0 "https://www.example.com" = .error (.keyError "video_id") ∧
    PyError.keyError "video_id" ≠ PyError.invalidYoutubeVideoURL :=
  ⟨rfl, rfl, rfl, by decide⟩

end StockLLM
